import Mathlib

/-!
Shallow embedding of the core of the `onotes` TUI notes application
(`src/notes.py`) and proofs about it.

Embedded components:
* `PasswordManager` (password gate; SHA-256 itself comes from Python's
  `hashlib`, an external library, so it is abstracted as a function
  parameter `hashFn`; everything else follows `notes.py` line by line);
* `NoteData` (the note/folder store; `save()` only serialises the
  in-memory state to disk, so the embedded operations return the new
  in-memory state, persistence being the identity on it);
* `NoteEditor._check_and_wrap_current_line` (the line-reflow routine;
  the editor text is modelled as the list of lines produced by
  `text.split('\n')`, a line being a list of characters, together with
  the `(row, col)` cursor).

Timestamps (`datetime.now().isoformat()`) are opaque strings supplied
by the caller as a `now` argument.
-/

set_option maxRecDepth 40000

namespace ONotes

/-! ### Password gate (`PasswordManager`, notes.py lines 28-79) -/

/-- Contents of `auth.json`.  `enabled` models `data.get("enabled", False)`
(so a missing key reads as `false`); `password_hash` is `none` when the
key is absent, in which case the Python comparison `hash == None` is
`False`. -/
structure AuthData where
  enabled : Bool
  password_hash : Option String
deriving DecidableEq, Repr

/-- `PasswordManager.verify_password` (lines 65-79).  The on-disk state
is `none` when `auth.json` does not exist.  `hashFn` stands for
`hashlib.sha256(...).hexdigest()`. -/
def verify_password (hashFn : String → String) (auth : Option AuthData)
    (password : String) : Bool :=
  match auth with
  | none => false
  | some data =>
    if data.enabled = false then
      true
    else
      match data.password_hash with
      | none => false
      | some h => hashFn password = h

/-- `PasswordManager.is_password_enabled` (lines 54-63). -/
def is_password_enabled (auth : Option AuthData) : Bool :=
  match auth with
  | none => false
  | some data => data.enabled

/-! ### Note store (`NoteData`, notes.py lines 82-163) -/

/-- One element of `data["notes"]`. -/
structure Note where
  id : Nat
  title : String
  content : String
  folder : String
  created : String
  modified : String
deriving DecidableEq, Repr

/-- The in-memory state `self.data`: the ordered folder-name sequence and
the note collection. -/
structure Store where
  folders : List String
  notes : List Note
deriving DecidableEq, Repr

/-- The default state built by `NoteData.load` when `notes.json` does not
exist (lines 93-96). -/
def initialStore : Store :=
  { folders := ["All Notes", "Personal", "Work"], notes := [] }

/-- `NoteData.add_note` (lines 103-115): the new id is
`len(self.data["notes"]) + 1`, an empty title falls back to
`"Untitled Note"` (Python `title or "Untitled Note"`), and the note is
appended.  Returns the new state and the new note. -/
def add_note (s : Store) (title content folder : String) (now : String) :
    Store × Note :=
  let note : Note :=
    { id := s.notes.length + 1
      title := if title = "" then "Untitled Note" else title
      content := content
      folder := folder
      created := now
      modified := now }
  ({ s with notes := s.notes ++ [note] }, note)

/-- The in-place field assignments of `NoteData.update_note`
(lines 121-123): overwrite `title` (placeholder when empty) and
`content` and stamp `modified`. -/
def updated_note (n : Note) (title content now : String) : Note :=
  { n with
    title := if title = "" then "Untitled Note" else title
    content := content
    modified := now }

/-- The loop of `NoteData.update_note` (lines 119-126): walk the note
list, rewrite the first note whose id matches and return it; `none`
when no note matches. -/
def update_notes (notes : List Note) (note_id : Nat)
    (title content now : String) : List Note × Option Note :=
  match notes with
  | [] => ([], none)
  | n :: ns =>
    if n.id = note_id then
      (updated_note n title content now :: ns, some (updated_note n title content now))
    else
      let r := update_notes ns note_id title content now
      (n :: r.1, r.2)

/-- `NoteData.update_note` (lines 117-126). -/
def update_note (s : Store) (note_id : Nat) (title content now : String) :
    Store × Option Note :=
  let r := update_notes s.notes note_id title content now
  ({ s with notes := r.1 }, r.2)

/-- `NoteData.delete_note` (lines 128-131): keep exactly the notes whose
id differs. -/
def delete_note (s : Store) (note_id : Nat) : Store :=
  { s with notes := s.notes.filter (fun n => n.id ≠ note_id) }

/-- `NoteData.get_notes_by_folder` (lines 133-137). -/
def get_notes_by_folder (s : Store) (folder : String) : List Note :=
  if folder = "All Notes" then s.notes
  else s.notes.filter (fun n => n.folder = folder)

/-- `NoteData.add_folder` (lines 139-145): `if folder_name and
folder_name not in self.data["folders"]` — the empty string is falsy. -/
def add_folder (s : Store) (folder_name : String) : Store × Bool :=
  if folder_name ≠ "" ∧ folder_name ∉ s.folders then
    ({ s with folders := s.folders ++ [folder_name] }, true)
  else
    (s, false)

/-- `NoteData.delete_folder` (lines 147-163): refuse `"All Notes"`;
otherwise, when present, reassign every note of that folder to
`"Personal"` and remove the folder (`list.remove` drops the first
occurrence, i.e. `List.erase`). -/
def delete_folder (s : Store) (folder_name : String) : Store × Bool :=
  if folder_name = "All Notes" then
    (s, false)
  else if folder_name ∈ s.folders then
    ({ folders := s.folders.erase folder_name
       notes := s.notes.map (fun n =>
         if n.folder = folder_name then { n with folder := "Personal" } else n) },
     true)
  else
    (s, false)

/-- Referential-integrity property from the spec (§3): every note's
`folder` value is either the virtual `"All Notes"` name or a name
present in the folder sequence. -/
@[reducible] def notes_folders_valid (s : Store) : Prop :=
  ∀ n ∈ s.notes, n.folder = "All Notes" ∨ n.folder ∈ s.folders

/-- Strengthened store invariant: referential integrity plus the
presence of the fallback folder `"Personal"` (which the spec requires
to exist as the reassignment target). -/
@[reducible] def store_inv (s : Store) : Prop :=
  notes_folders_valid s ∧ "Personal" ∈ s.folders

/-- A session operation on the store for the id-assignment claim:
either an `add_note` call (with its arguments) or a `delete_note`
call. -/
inductive NoteOp where
  | addOp (title content folder now : String)
  | delOp (note_id : Nat)
deriving DecidableEq, Repr

/-- Whether a session operation is an `add_note` call. -/
def NoteOp.isAdd : NoteOp → Bool
  | .addOp _ _ _ _ => true
  | .delOp _ => false

/-- Apply one session operation to the store, keeping only the state. -/
def apply_op (s : Store) : NoteOp → Store
  | .addOp t c f now => (add_note s t c f now).1
  | .delOp i => delete_note s i

/-- Run a sequence of `add_note` / `delete_note` operations from the
freshly-initialised (empty-notes) store. -/
def run_ops (ops : List NoteOp) : Store :=
  ops.foldl apply_op initialStore

/-- Concrete store used to instantiate the store theorems on explicit
inputs: the default folders plus two saved notes. -/
def sampleStore : Store :=
  { folders := ["All Notes", "Personal", "Work"]
    notes :=
      [{ id := 1, title := "a", content := "x", folder := "Personal",
         created := "t0", modified := "t0" },
       { id := 2, title := "b", content := "y", folder := "Work",
         created := "t0", modified := "t0" }] }

/-! ### Line reflow (`NoteEditor._check_and_wrap_current_line`,
notes.py lines 240-306) -/

/-- `NoteEditor.MAX_LINE_LENGTH` (line 244). -/
def MAX_LINE_LENGTH : Nat := 80

/-- Python's `str.isspace` set for the characters str.strip family
removes — the ASCII whitespace characters that can occur in a line. -/
def pySpace (c : Char) : Bool :=
  c = ' ' ∨ c = '\t' ∨ c = '\n' ∨ c = '\x0b' ∨ c = '\x0c' ∨ c = '\r'

/-- `str.lstrip()` on a line. -/
def lstrip (l : List Char) : List Char := l.dropWhile pySpace

/-- `str.rstrip()` on a line. -/
def rstrip (l : List Char) : List Char := (l.reverse.dropWhile pySpace).reverse

/-- Scan indices `i-1, i-2, ..., 0` of `l` for a space, returning the
first (hence largest) index found. -/
def rfindSpaceFrom (l : List Char) : Nat → Option Nat
  | 0 => none
  | i + 1 => if l.getD i 'x' = ' ' then some i else rfindSpaceFrom l i

/-- `line.rfind(' ', 0, stop)` (line 272): the largest index of `' '`
among the first `stop` characters of `line`, `none` standing for
Python's `-1`. -/
def rfindSpace (l : List Char) (stop : Nat) : Option Nat :=
  rfindSpaceFrom l (min stop l.length)

/-- The editor text and cursor: `self.text.split('\n')` as a list of
lines (each a list of characters) plus `self.cursor_location`. -/
structure Buffer where
  lines : List (List Char)
  row : Nat
  col : Nat
deriving DecidableEq, Repr

/-- `NoteEditor._check_and_wrap_current_line` (lines 251-306) as a pure
state transformer.  The `self._wrapping` flag only suppresses the
nested change notification fired by `load_text` inside the routine
itself; a pure function has no such re-entry, so the flag has no
residue here.  `max(0, old_col - wrap_point - spaces_stripped)` is
computed over ℤ exactly as Python does and is non-negative by the
`max`, so `Int.toNat` is faithful. -/
def check_and_wrap_current_line (b : Buffer) : Buffer :=
  if b.lines.length ≤ b.row then b
  else
    let current_line := b.lines.getD b.row []
    if current_line.length ≤ MAX_LINE_LENGTH then b
    else
      let wrap_point := (rfindSpace current_line MAX_LINE_LENGTH).getD MAX_LINE_LENGTH
      let first_part := rstrip (current_line.take wrap_point)
      let second_part := lstrip (current_line.drop wrap_point)
      let spaces_stripped := (current_line.drop wrap_point).length - second_part.length
      let new_cursor_col : Nat :=
        if first_part.length < b.col then
          (max 0 ((b.col : Int) - wrap_point - spaces_stripped)).toNat
        else
          second_part.length
      { lines := (b.lines.set b.row first_part).insertIdx (b.row + 1) second_part
        row := b.row + 1
        col := new_cursor_col }

/-! ### Helper lemmas about the reflow primitives -/

theorem head?_dropWhile_neg (p : Char → Bool) :
    ∀ (l : List Char) (c : Char), (l.dropWhile p).head? = some c → p c = false := by
  intro l
  induction l with
  | nil => intro c h; simp at h
  | cons a l ih =>
    intro c h
    rw [List.dropWhile_cons] at h
    by_cases hp : p a = true
    · rw [if_pos hp] at h
      exact ih c h
    · rw [if_neg hp] at h
      have hac : a = c := by simpa using h
      subst hac
      simpa using hp

theorem lstrip_head_not_space (l : List Char) (c : Char)
    (h : (lstrip l).head? = some c) : pySpace c = false :=
  head?_dropWhile_neg pySpace l c h

theorem rstrip_getLast_not_space (l : List Char) (c : Char)
    (h : (rstrip l).getLast? = some c) : pySpace c = false := by
  rw [rstrip, List.getLast?_reverse] at h
  exact head?_dropWhile_neg pySpace l.reverse c h

theorem length_dropWhile_le' (p : Char → Bool) (l : List Char) :
    (l.dropWhile p).length ≤ l.length := by
  induction l with
  | nil => simp
  | cons a l ih =>
    rw [List.dropWhile_cons]
    by_cases hp : p a = true
    · rw [if_pos hp]
      exact Nat.le_trans ih (by simp)
    · rw [if_neg hp]

theorem rstrip_length_le (l : List Char) : (rstrip l).length ≤ l.length := by
  have := length_dropWhile_le' pySpace l.reverse
  simpa [rstrip] using this

theorem rfindSpaceFrom_some (l : List Char) :
    ∀ k p, rfindSpaceFrom l k = some p →
      p < k ∧ l.getD p 'x' = ' ' ∧
      ∀ j, p < j → j < k → l.getD j 'x' ≠ ' ' := by
  intro k
  induction k with
  | zero => intro p h; simp [rfindSpaceFrom] at h
  | succ i ih =>
    intro p h
    rw [rfindSpaceFrom] at h
    by_cases hc : l.getD i 'x' = ' '
    · rw [if_pos hc] at h
      have hpi : p = i := by simpa using h.symm
      subst hpi
      exact ⟨Nat.lt_succ_self _, hc, fun j h1 h2 => absurd rfl (by omega : j ≠ j)⟩
    · rw [if_neg hc] at h
      obtain ⟨h1, h2, h3⟩ := ih p h
      refine ⟨by omega, h2, fun j hj1 hj2 => ?_⟩
      by_cases hji : j = i
      · subst hji; exact hc
      · exact h3 j hj1 (by omega)

theorem rfindSpaceFrom_isSome (l : List Char) :
    ∀ k, (∃ i, i < k ∧ l.getD i 'x' = ' ') →
      ∃ p, rfindSpaceFrom l k = some p := by
  intro k
  induction k with
  | zero => intro h; obtain ⟨i, hi, _⟩ := h; omega
  | succ i ih =>
    intro h
    rw [rfindSpaceFrom]
    by_cases hc : l.getD i 'x' = ' '
    · exact ⟨i, by rw [if_pos hc]⟩
    · rw [if_neg hc]
      obtain ⟨j, hj, hjs⟩ := h
      refine ih ⟨j, ?_, hjs⟩
      rcases Nat.lt_succ_iff_lt_or_eq.mp hj with h' | h'
      · exact h'
      · exact absurd (h' ▸ hjs) hc

/-- The list obtained by `lines[i] = first; lines.insert(i+1, second)`
has one more element. -/
theorem length_set_insert (L : List (List Char)) (r : Nat)
    (a b : List Char) (hr : r < L.length) :
    ((L.set r a).insertIdx (r + 1) b).length = L.length + 1 := by
  rw [List.length_insertIdx _ _ (by simpa using hr), List.length_set]

theorem getD_set_insert_self (L : List (List Char)) (r : Nat)
    (a b : List Char) (hr : r < L.length) :
    ((L.set r a).insertIdx (r + 1) b).getD r [] = a := by
  have hr2 : r < (L.set r a).length := by simpa using hr
  have hlen : r < ((L.set r a).insertIdx (r + 1) b).length := by
    rw [length_set_insert L r a b hr]; omega
  rw [List.getD_eq_getElem?_getD, List.getElem?_eq_getElem hlen]
  have h1 : ((L.set r a).insertIdx (r + 1) b)[r] = (L.set r a)[r] :=
    List.getElem_insertIdx_of_lt _ _ _ _ (Nat.lt_succ_self r) hr2
  rw [h1, List.getElem_set_self]
  rfl

theorem getD_set_insert_succ (L : List (List Char)) (r : Nat)
    (a b : List Char) (hr : r < L.length) :
    ((L.set r a).insertIdx (r + 1) b).getD (r + 1) [] = b := by
  have hlen : r + 1 < ((L.set r a).insertIdx (r + 1) b).length := by
    rw [length_set_insert L r a b hr]; omega
  rw [List.getD_eq_getElem?_getD, List.getElem?_eq_getElem hlen]
  rw [List.getElem_insertIdx_self _ _ _ (by simpa using hr)]
  rfl

/-- Explicit form of `_check_and_wrap_current_line` when the cursor row
is in range and its line is over the limit. -/
theorem wrap_eq_of_long (b : Buffer) (h1 : b.row < b.lines.length)
    (h2 : MAX_LINE_LENGTH < (b.lines.getD b.row []).length) :
    check_and_wrap_current_line b =
      let current_line := b.lines.getD b.row []
      let wrap_point := (rfindSpace current_line MAX_LINE_LENGTH).getD MAX_LINE_LENGTH
      let first_part := rstrip (current_line.take wrap_point)
      let second_part := lstrip (current_line.drop wrap_point)
      let spaces_stripped := (current_line.drop wrap_point).length - second_part.length
      { lines := (b.lines.set b.row first_part).insertIdx (b.row + 1) second_part
        row := b.row + 1
        col :=
          if first_part.length < b.col then
            (max 0 ((b.col : Int) - wrap_point - spaces_stripped)).toNat
          else
            second_part.length } := by
  rw [check_and_wrap_current_line]
  rw [if_neg (by omega), if_neg (by omega)]

/-- `_check_and_wrap_current_line` is the identity when the cursor line
does not exceed the limit (or the cursor row is out of range). -/
theorem wrap_noop_of_short (b : Buffer)
    (h : (b.lines.getD b.row []).length ≤ MAX_LINE_LENGTH) :
    check_and_wrap_current_line b = b := by
  rw [check_and_wrap_current_line]
  by_cases hr : b.lines.length ≤ b.row
  · rw [if_pos hr]
  · rw [if_neg hr, if_pos h]

/-! ### Claim theorems: reflow -/

/-- C6: on a buffer whose cursor line is 85 `'a'` characters (no
spaces), reflow force-splits at column 80, leaving a first line of
exactly 80 characters and a second line of exactly 5 characters,
whatever the cursor column was. -/
theorem wrap_force_split_85 (c : Nat) :
    (check_and_wrap_current_line ⟨[List.replicate 85 'a'], 0, c⟩).lines
        = [List.replicate 80 'a', List.replicate 5 'a'] ∧
      (List.replicate 80 'a' : List Char).length = 80 ∧
      (List.replicate 5 'a' : List Char).length = 5 :=
  ⟨rfl, by decide, by decide⟩

/-- C4 (amended): a second reflow application is a no-op whenever the
line holding the cursor after the first application is within the
80-character limit — in particular whenever the first application
either did nothing or displaced a tail of at most 80 characters.  (The
unrestricted claim fails: a single line longer than about twice the
limit leaves an over-length tail under the cursor, which a second
application splits again; see `wrap_not_idempotent_long_tail`.) -/
theorem wrap_idempotent_of_short_tail (b : Buffer)
    (h : ((check_and_wrap_current_line b).lines.getD
        (check_and_wrap_current_line b).row []).length ≤ MAX_LINE_LENGTH) :
    check_and_wrap_current_line (check_and_wrap_current_line b)
      = check_and_wrap_current_line b :=
  wrap_noop_of_short _ h

theorem wrap_idempotent_of_short_tail_witness :
    (((check_and_wrap_current_line ⟨[List.replicate 85 'a'], 0, 85⟩).lines.getD
        (check_and_wrap_current_line ⟨[List.replicate 85 'a'], 0, 85⟩).row []).length
      ≤ MAX_LINE_LENGTH) ∧
    check_and_wrap_current_line
        (check_and_wrap_current_line ⟨[List.replicate 85 'a'], 0, 85⟩)
      = check_and_wrap_current_line ⟨[List.replicate 85 'a'], 0, 85⟩ :=
  ⟨by decide, wrap_idempotent_of_short_tail _ (by decide)⟩

/-- C4 counterexample: on a single line of 200 `'a'` characters the
first reflow leaves a 120-character tail under the cursor, so the
second application is not a no-op — it splits again. -/
theorem wrap_not_idempotent_long_tail :
    check_and_wrap_current_line
        (check_and_wrap_current_line ⟨[List.replicate 200 'a'], 0, 0⟩)
      ≠ check_and_wrap_current_line ⟨[List.replicate 200 'a'], 0, 0⟩ := by
  decide

/-- C3 (amended): when reflow splits the cursor's over-length line, the
cursor always lands on the new second line; its column is
`max(0, original_column − wrap_point − spaces_stripped)` when the
original column was beyond the end of the *trimmed* first line, and the
end of the second line's content otherwise.  (The code compares the
original column with the trimmed first part's length, not with the
split point itself: for columns lying between the trimmed length and
the split point the cursor lands at column 0 of the second line, not at
the end of its content; see `wrap_cursor_not_end_of_second_line`.) -/
theorem wrap_cursor_spec (b : Buffer) (h1 : b.row < b.lines.length)
    (h2 : MAX_LINE_LENGTH < (b.lines.getD b.row []).length) :
    (check_and_wrap_current_line b).row = b.row + 1 ∧
    (check_and_wrap_current_line b).col =
      (let current_line := b.lines.getD b.row []
       let wrap_point := (rfindSpace current_line MAX_LINE_LENGTH).getD MAX_LINE_LENGTH
       let first_part := rstrip (current_line.take wrap_point)
       let second_part := lstrip (current_line.drop wrap_point)
       let spaces_stripped := (current_line.drop wrap_point).length - second_part.length
       if first_part.length < b.col then
         (max 0 ((b.col : Int) - wrap_point - spaces_stripped)).toNat
       else
         second_part.length) := by
  rw [wrap_eq_of_long b h1 h2]
  exact ⟨rfl, rfl⟩

theorem wrap_cursor_spec_witness :
    ((0 : Nat) < 1 ∧
      MAX_LINE_LENGTH < ((List.replicate 85 'a' : List Char)).length) ∧
    (check_and_wrap_current_line ⟨[List.replicate 85 'a'], 0, 85⟩).row = 0 + 1 ∧
    (check_and_wrap_current_line ⟨[List.replicate 85 'a'], 0, 85⟩).col =
      (let current_line := (⟨[List.replicate 85 'a'], 0, 85⟩ : Buffer).lines.getD 0 []
       let wrap_point := (rfindSpace current_line MAX_LINE_LENGTH).getD MAX_LINE_LENGTH
       let first_part := rstrip (current_line.take wrap_point)
       let second_part := lstrip (current_line.drop wrap_point)
       let spaces_stripped := (current_line.drop wrap_point).length - second_part.length
       if first_part.length < 85 then
         (max 0 ((85 : Int) - wrap_point - spaces_stripped)).toNat
       else
         second_part.length) :=
  ⟨⟨by decide, by decide⟩, wrap_cursor_spec ⟨[List.replicate 85 'a'], 0, 85⟩ (by decide) (by decide)⟩

/-- C3 counterexample: the line is `"ab"` followed by 79 spaces and ten
`'c'`s; the split point found by `rfind` is 79 and the cursor column 50
is at or before it, yet the cursor ends at column 0 of the second line,
not at the end of its 10-character content, because the code branches
on the *trimmed* first-part length 2, not on the split point. -/
theorem wrap_cursor_not_end_of_second_line :
    rfindSpace ('a' :: 'b' :: (List.replicate 79 ' ' ++ List.replicate 10 'c'))
        MAX_LINE_LENGTH = some 79 ∧
    (50 : Nat) ≤ 79 ∧
    (check_and_wrap_current_line
        ⟨['a' :: 'b' :: (List.replicate 79 ' ' ++ List.replicate 10 'c')], 0, 50⟩).row = 1 ∧
    ((check_and_wrap_current_line
        ⟨['a' :: 'b' :: (List.replicate 79 ' ' ++ List.replicate 10 'c')], 0, 50⟩).lines.getD 1
        []).length = 10 ∧
    (check_and_wrap_current_line
        ⟨['a' :: 'b' :: (List.replicate 79 ' ' ++ List.replicate 10 'c')], 0, 50⟩).col = 0 := by
  decide

/-- C5 (amended): when the cursor's line is over-length and has a space
strictly before column 80 (i.e. among its first 80 characters), reflow
splits at the rightmost such space `p`: the current line becomes
`line[0:p]` with trailing whitespace trimmed (hence at most 80
characters and with no trailing space) and `line[p:]` with leading
whitespace trimmed (hence with no leading space) is inserted
immediately after.  (The unamended claim — a space *at or before*
column 80, i.e. index ≤ 80, counts — fails: `rfind(' ', 0, 80)` never
looks at index 80; see `wrap_ignores_space_at_limit`.) -/
theorem wrap_splits_at_rightmost_space (b : Buffer)
    (h1 : b.row < b.lines.length)
    (h2 : MAX_LINE_LENGTH < (b.lines.getD b.row []).length)
    (h3 : ∃ i, i < MAX_LINE_LENGTH ∧ (b.lines.getD b.row []).getD i 'x' = ' ') :
    ∃ p, rfindSpace (b.lines.getD b.row []) MAX_LINE_LENGTH = some p ∧
      p < MAX_LINE_LENGTH ∧
      (b.lines.getD b.row []).getD p 'x' = ' ' ∧
      (∀ j, p < j → j < MAX_LINE_LENGTH → (b.lines.getD b.row []).getD j 'x' ≠ ' ') ∧
      (check_and_wrap_current_line b).lines.length = b.lines.length + 1 ∧
      (check_and_wrap_current_line b).lines.getD b.row []
        = rstrip ((b.lines.getD b.row []).take p) ∧
      (check_and_wrap_current_line b).lines.getD (b.row + 1) []
        = lstrip ((b.lines.getD b.row []).drop p) ∧
      (rstrip ((b.lines.getD b.row []).take p)).length ≤ MAX_LINE_LENGTH ∧
      (∀ c, (rstrip ((b.lines.getD b.row []).take p)).getLast? = some c → pySpace c = false) ∧
      (∀ c, (lstrip ((b.lines.getD b.row []).drop p)).head? = some c → pySpace c = false) := by
  have hmin : min MAX_LINE_LENGTH (b.lines.getD b.row []).length = MAX_LINE_LENGTH :=
    Nat.min_eq_left (Nat.le_of_lt h2)
  obtain ⟨p, hp⟩ := rfindSpaceFrom_isSome (b.lines.getD b.row []) MAX_LINE_LENGTH h3
  have hrf : rfindSpace (b.lines.getD b.row []) MAX_LINE_LENGTH = some p := by
    rw [rfindSpace, hmin]; exact hp
  obtain ⟨hplt, hpsp, hpmax⟩ := rfindSpaceFrom_some (b.lines.getD b.row []) MAX_LINE_LENGTH p hp
  refine ⟨p, hrf, hplt, hpsp, hpmax, ?_, ?_, ?_, ?_, ?_, ?_⟩
  · rw [wrap_eq_of_long b h1 h2]
    simp only [hrf, Option.getD_some]
    exact length_set_insert _ _ _ _ h1
  · rw [wrap_eq_of_long b h1 h2]
    simp only [hrf, Option.getD_some]
    exact getD_set_insert_self _ _ _ _ h1
  · rw [wrap_eq_of_long b h1 h2]
    simp only [hrf, Option.getD_some]
    exact getD_set_insert_succ _ _ _ _ h1
  · calc (rstrip ((b.lines.getD b.row []).take p)).length
        ≤ ((b.lines.getD b.row []).take p).length := rstrip_length_le _
      _ ≤ p := by rw [List.length_take]; omega
      _ ≤ MAX_LINE_LENGTH := Nat.le_of_lt hplt
  · exact fun c hc => rstrip_getLast_not_space _ c hc
  · exact fun c hc => lstrip_head_not_space _ c hc

theorem wrap_splits_at_rightmost_space_witness :
    ∃ p, rfindSpace (List.replicate 40 'a' ++ ' ' :: List.replicate 45 'b')
        MAX_LINE_LENGTH = some p ∧
      p < MAX_LINE_LENGTH ∧
      (List.replicate 40 'a' ++ ' ' :: List.replicate 45 'b' : List Char).getD p 'x' = ' ' ∧
      (∀ j, p < j → j < MAX_LINE_LENGTH →
        (List.replicate 40 'a' ++ ' ' :: List.replicate 45 'b' : List Char).getD j 'x' ≠ ' ') ∧
      (check_and_wrap_current_line
          ⟨[List.replicate 40 'a' ++ ' ' :: List.replicate 45 'b'], 0, 0⟩).lines.length
        = ([List.replicate 40 'a' ++ ' ' :: List.replicate 45 'b'] : List (List Char)).length + 1 ∧
      (check_and_wrap_current_line
          ⟨[List.replicate 40 'a' ++ ' ' :: List.replicate 45 'b'], 0, 0⟩).lines.getD 0 []
        = rstrip ((List.replicate 40 'a' ++ ' ' :: List.replicate 45 'b' : List Char).take p) ∧
      (check_and_wrap_current_line
          ⟨[List.replicate 40 'a' ++ ' ' :: List.replicate 45 'b'], 0, 0⟩).lines.getD 1 []
        = lstrip ((List.replicate 40 'a' ++ ' ' :: List.replicate 45 'b' : List Char).drop p) ∧
      (rstrip ((List.replicate 40 'a' ++ ' ' :: List.replicate 45 'b' : List Char).take p)).length
        ≤ MAX_LINE_LENGTH ∧
      (∀ c, (rstrip ((List.replicate 40 'a' ++ ' ' :: List.replicate 45 'b' : List Char).take
        p)).getLast? = some c → pySpace c = false) ∧
      (∀ c, (lstrip ((List.replicate 40 'a' ++ ' ' :: List.replicate 45 'b' : List Char).drop
        p)).head? = some c → pySpace c = false) :=
  wrap_splits_at_rightmost_space
    ⟨[List.replicate 40 'a' ++ ' ' :: List.replicate 45 'b'], 0, 0⟩
    (by decide) (by decide) ⟨40, by decide, by decide⟩

/-- C5 counterexample: a 91-character line with spaces exactly at
indices 40 and 80.  There is a space at (or before) column 80, but the
code's `rfind(' ', 0, 80)` does not see index 80 and splits at 40
instead of at the rightmost space at-or-before the limit. -/
theorem wrap_ignores_space_at_limit :
    ((List.replicate 40 'a' ++ ' ' :: (List.replicate 39 'a' ++ ' ' :: List.replicate 10 'b') :
        List Char)).getD MAX_LINE_LENGTH 'x' = ' ' ∧
    MAX_LINE_LENGTH <
      ((List.replicate 40 'a' ++ ' ' :: (List.replicate 39 'a' ++ ' ' :: List.replicate 10 'b') :
        List Char)).length ∧
    (check_and_wrap_current_line
        ⟨[List.replicate 40 'a' ++ ' ' :: (List.replicate 39 'a' ++ ' ' :: List.replicate 10 'b')],
          0, 0⟩).lines.getD 0 []
      = rstrip ((List.replicate 40 'a' ++ ' ' :: (List.replicate 39 'a' ++ ' ' :: List.replicate 10 'b') :
          List Char).take 40) ∧
    (check_and_wrap_current_line
        ⟨[List.replicate 40 'a' ++ ' ' :: (List.replicate 39 'a' ++ ' ' :: List.replicate 10 'b')],
          0, 0⟩).lines.getD 0 []
      ≠ rstrip ((List.replicate 40 'a' ++ ' ' :: (List.replicate 39 'a' ++ ' ' :: List.replicate 10 'b') :
          List Char).take MAX_LINE_LENGTH) := by
  decide

/-! ### Claim theorems: password gate and store CRUD -/

/-- C8: `verify_password` returns `false` for every input when no
credential file exists; returns `true` unconditionally when the
persisted `enabled` flag is `false`; and when enabled with a stored
hash it returns `true` exactly when the hash of the input equals the
stored hash. -/
theorem verify_password_spec (hashFn : String → String)
    (auth : Option AuthData) (password : String) :
    (auth = none → verify_password hashFn auth password = false) ∧
    (∀ d, auth = some d → is_password_enabled auth = false →
      verify_password hashFn auth password = true) ∧
    (∀ d h, auth = some d → d.enabled = true → d.password_hash = some h →
      (verify_password hashFn auth password = true ↔ hashFn password = h)) := by
  refine ⟨fun h => by simp [h, verify_password], fun d hd he => ?_, fun d h hd he hh => ?_⟩
  · subst hd
    simp [is_password_enabled] at he
    simp [verify_password, he]
  · subst hd
    simp [verify_password, he, hh]

theorem verify_password_spec_witness :
    verify_password (fun s => s ++ "#") none "pw" = false ∧
    verify_password (fun s => s ++ "#") (some ⟨false, some "pw#"⟩) "other" = true ∧
    (verify_password (fun s => s ++ "#") (some ⟨true, some "pw#"⟩) "pw" = true ↔
      (fun s => s ++ "#") "pw" = "pw#") :=
  ⟨(verify_password_spec (fun s => s ++ "#") none "pw").1 rfl,
   (verify_password_spec (fun s => s ++ "#") (some ⟨false, some "pw#"⟩) "other").2.1
     ⟨false, some "pw#"⟩ rfl (by decide),
   (verify_password_spec (fun s => s ++ "#") (some ⟨true, some "pw#"⟩) "pw").2.2
     ⟨true, some "pw#"⟩ "pw#" rfl rfl rfl⟩

/-- C10: `add_folder` returns `false` and changes nothing when the name
is empty or already present (case-sensitive exact match); otherwise it
appends the name at the end of the folder sequence, leaves the notes
unchanged, and returns `true`. -/
theorem add_folder_spec (s : Store) (name : String) :
    ((name = "" ∨ name ∈ s.folders) → add_folder s name = (s, false)) ∧
    (name ≠ "" → name ∉ s.folders →
      add_folder s name = ({ s with folders := s.folders ++ [name] }, true)) := by
  constructor
  · intro h
    rw [add_folder, if_neg]
    rcases h with h | h
    · exact fun hc => hc.1 h
    · exact fun hc => hc.2 h
  · intro h1 h2
    rw [add_folder, if_pos ⟨h1, h2⟩]

theorem add_folder_spec_witness :
    add_folder initialStore "Personal" = (initialStore, false) ∧
    add_folder initialStore "" = (initialStore, false) ∧
    add_folder initialStore "Archive"
      = ({ initialStore with folders := initialStore.folders ++ ["Archive"] }, true) :=
  ⟨(add_folder_spec initialStore "Personal").1 (Or.inr (by decide)),
   (add_folder_spec initialStore "").1 (Or.inl rfl),
   (add_folder_spec initialStore "Archive").2 (by decide) (by decide)⟩

/-- C7: `delete_folder` of the virtual folder `"All Notes"` returns
`false` and leaves the state unchanged; for any other name present in
the folder sequence it returns `true`, removes (the first occurrence
of) the name from the sequence, and pointwise reassigns exactly the
notes of that folder to the fallback folder `"Personal"`, keeping every
other note intact and dropping or adding none. -/
theorem delete_folder_spec (s : Store) (F : String) :
    (F = "All Notes" → delete_folder s F = (s, false)) ∧
    (F ≠ "All Notes" → F ∈ s.folders →
      (delete_folder s F).2 = true ∧
      (delete_folder s F).1.folders = s.folders.erase F ∧
      (delete_folder s F).1.notes.length = s.notes.length ∧
      ∀ k (hk : k < s.notes.length),
        (delete_folder s F).1.notes[k]?
          = some (if (s.notes.get ⟨k, hk⟩).folder = F
              then { s.notes.get ⟨k, hk⟩ with folder := "Personal" }
              else s.notes.get ⟨k, hk⟩)) := by
  constructor
  · intro h
    rw [delete_folder, if_pos h]
  · intro h1 h2
    rw [delete_folder, if_neg h1, if_pos h2]
    refine ⟨rfl, rfl, by simp, ?_⟩
    intro k hk
    simp [List.getElem?_eq_getElem hk, List.get_eq_getElem]

theorem delete_folder_spec_witness :
    delete_folder initialStore "All Notes" = (initialStore, false) ∧
    (delete_folder initialStore "Work").2 = true ∧
    (delete_folder initialStore "Work").1.folders = initialStore.folders.erase "Work" :=
  ⟨(delete_folder_spec initialStore "All Notes").1 rfl,
   ((delete_folder_spec initialStore "Work").2 (by decide) (by decide)).1,
   ((delete_folder_spec initialStore "Work").2 (by decide) (by decide)).2.1⟩

theorem update_notes_not_found (notes : List Note) (note_id : Nat) (t c now : String)
    (h : ∀ n ∈ notes, n.id ≠ note_id) :
    update_notes notes note_id t c now = (notes, none) := by
  induction notes with
  | nil => rfl
  | cons n ns ih =>
    simp only [update_notes]
    rw [if_neg (h n (List.mem_cons_self n ns)), ih (fun m hm => h m (List.mem_cons_of_mem n hm))]

theorem update_notes_found (notes : List Note) (note_id : Nat) (t c now : String)
    (h : ∃ n ∈ notes, n.id = note_id) :
    ∃ (k : Nat) (hk : k < notes.length),
      (notes.get ⟨k, hk⟩).id = note_id ∧
      (∀ j (hj : j < notes.length), j < k → (notes.get ⟨j, hj⟩).id ≠ note_id) ∧
      update_notes notes note_id t c now =
        (notes.set k (updated_note (notes.get ⟨k, hk⟩) t c now),
         some (updated_note (notes.get ⟨k, hk⟩) t c now)) := by
  induction notes with
  | nil => simp at h
  | cons n ns ih =>
    by_cases hn : n.id = note_id
    · refine ⟨0, by simp, by simpa using hn,
        fun j hj hj0 => absurd hj0 (Nat.not_lt_zero j), ?_⟩
      simp only [update_notes]
      rw [if_pos hn]
      rfl
    · have h' : ∃ m ∈ ns, m.id = note_id := by
        rcases h with ⟨m, hm, hmid⟩
        rcases List.mem_cons.mp hm with rfl | hm'
        · exact absurd hmid hn
        · exact ⟨m, hm', hmid⟩
      obtain ⟨k, hk, hkid, hkfirst, heq⟩ := ih h'
      refine ⟨k + 1, by simpa using Nat.succ_lt_succ hk, by simpa using hkid, ?_, ?_⟩
      · intro j hj hjk
        cases j with
        | zero => simpa using hn
        | succ j' =>
          have := hkfirst j' (by simpa using Nat.lt_of_succ_lt_succ hj)
            (Nat.lt_of_succ_lt_succ hjk)
          simpa using this
      · simp only [update_notes]
        rw [if_neg hn, heq]
        simp

/-- C9: when no note carries the requested id, `update_note` returns
the `none` sentinel and leaves the store untouched; when one does, it
rewrites the first such note — overwriting its title (with the
placeholder when the given title is empty) and content and stamping the
new `modified` value — returns that rewritten note, and leaves every
other note and the folder sequence unchanged. -/
theorem update_note_spec (s : Store) (note_id : Nat) (t c now : String) :
    ((∀ n ∈ s.notes, n.id ≠ note_id) →
      update_note s note_id t c now = (s, none)) ∧
    ((∃ n ∈ s.notes, n.id = note_id) →
      ∃ (k : Nat) (hk : k < s.notes.length),
        (s.notes.get ⟨k, hk⟩).id = note_id ∧
        (∀ j (hj : j < s.notes.length), j < k → (s.notes.get ⟨j, hj⟩).id ≠ note_id) ∧
        (update_note s note_id t c now).2
          = some (updated_note (s.notes.get ⟨k, hk⟩) t c now) ∧
        (update_note s note_id t c now).1.notes
          = s.notes.set k (updated_note (s.notes.get ⟨k, hk⟩) t c now) ∧
        (update_note s note_id t c now).1.folders = s.folders) := by
  constructor
  · intro h
    rw [update_note, update_notes_not_found s.notes note_id t c now h]
  · intro h
    obtain ⟨k, hk, h1, h2, heq⟩ := update_notes_found s.notes note_id t c now h
    exact ⟨k, hk, h1, h2, by rw [update_note, heq], by rw [update_note, heq],
      by rw [update_note]⟩

theorem update_note_spec_witness :
    update_note sampleStore 5 "T" "C" "t1" = (sampleStore, none) ∧
    (∃ (k : Nat) (hk : k < sampleStore.notes.length),
      (sampleStore.notes.get ⟨k, hk⟩).id = 2 ∧
      (∀ j (hj : j < sampleStore.notes.length), j < k →
        (sampleStore.notes.get ⟨j, hj⟩).id ≠ 2) ∧
      (update_note sampleStore 2 "T" "C" "t1").2
        = some (updated_note (sampleStore.notes.get ⟨k, hk⟩) "T" "C" "t1") ∧
      (update_note sampleStore 2 "T" "C" "t1").1.notes
        = sampleStore.notes.set k (updated_note (sampleStore.notes.get ⟨k, hk⟩) "T" "C" "t1") ∧
      (update_note sampleStore 2 "T" "C" "t1").1.folders = sampleStore.folders) :=
  ⟨(update_note_spec sampleStore 5 "T" "C" "t1").1 (by decide),
   (update_note_spec sampleStore 2 "T" "C" "t1").2 (by decide)⟩

theorem update_notes_folder_from (notes : List Note) (note_id : Nat) (t c now : String) :
    ∀ m ∈ (update_notes notes note_id t c now).1, ∃ n ∈ notes, m.folder = n.folder := by
  induction notes with
  | nil => intro m hm; simp [update_notes] at hm
  | cons n ns ih =>
    intro m hm
    simp only [update_notes] at hm
    by_cases hn : n.id = note_id
    · rw [if_pos hn] at hm
      rcases List.mem_cons.mp hm with rfl | hm'
      · exact ⟨n, List.mem_cons_self n ns, rfl⟩
      · exact ⟨m, List.mem_cons_of_mem n hm', rfl⟩
    · rw [if_neg hn] at hm
      rcases List.mem_cons.mp hm with rfl | hm'
      · exact ⟨m, List.mem_cons_self m ns, rfl⟩
      · obtain ⟨n', hn', he⟩ := ih m hm'
        exact ⟨n', List.mem_cons_of_mem n hn', he⟩

/-- C1 (amended): the freshly-initialised store satisfies the
referential-integrity invariant (every note's folder is `"All Notes"`
or a listed folder name, and the fallback folder `"Personal"` is
listed), and every store operation preserves it — provided `add_note`
is called with a folder that is `"All Notes"` or currently listed, and
`delete_folder` is not applied to the fallback folder `"Personal"`
itself.  (The unamended claim fails: `delete_folder "Personal"`
reassigns the notes of `"Personal"` to `"Personal"` while removing that
very folder, leaving those notes pointing at an absent folder; see
`folder_integrity_broken_by_fallback_delete`.  `add_note` also accepts
an arbitrary folder string without validating it.) -/
theorem store_inv_preserved (s : Store) (hs : store_inv s) :
    store_inv initialStore ∧
    (∀ t c f now, (f = "All Notes" ∨ f ∈ s.folders) →
      store_inv (add_note s t c f now).1) ∧
    (∀ note_id t c now, store_inv (update_note s note_id t c now).1) ∧
    (∀ note_id, store_inv (delete_note s note_id)) ∧
    (∀ name, store_inv (add_folder s name).1) ∧
    (∀ F, F ≠ "Personal" → store_inv (delete_folder s F).1) := by
  refine ⟨by decide, ?_, ?_, ?_, ?_, ?_⟩
  · intro t c f now hf
    refine ⟨?_, hs.2⟩
    intro n hn
    rcases List.mem_append.mp hn with h' | h'
    · exact hs.1 n h'
    · have : n.folder = f := by
        simp only [List.mem_singleton] at h'
        rw [h']
      rw [this]
      exact hf
  · intro note_id t c now
    refine ⟨?_, hs.2⟩
    intro m hm
    obtain ⟨n, hn, he⟩ := update_notes_folder_from s.notes note_id t c now m hm
    rw [he]
    exact hs.1 n hn
  · intro note_id
    refine ⟨?_, hs.2⟩
    intro n hn
    exact hs.1 n (List.mem_of_mem_filter hn)
  · intro name
    by_cases hc : name ≠ "" ∧ name ∉ s.folders
    · rw [add_folder, if_pos hc]
      refine ⟨?_, List.mem_append_left _ hs.2⟩
      intro n hn
      rcases hs.1 n hn with h' | h'
      · exact Or.inl h'
      · exact Or.inr (List.mem_append_left _ h')
    · rw [add_folder, if_neg hc]
      exact hs
  · intro F hF
    have hPF : ("Personal" : String) ≠ F := fun h => hF h.symm
    by_cases hA : F = "All Notes"
    · rw [delete_folder, if_pos hA]
      exact hs
    · by_cases hmem : F ∈ s.folders
      · rw [delete_folder, if_neg hA, if_pos hmem]
        refine ⟨?_, (List.mem_erase_of_ne hPF).mpr hs.2⟩
        intro m hm
        obtain ⟨n, hn, he⟩ := List.mem_map.mp hm
        by_cases hnf : n.folder = F
        · rw [if_pos hnf] at he
          rw [← he]
          exact Or.inr ((List.mem_erase_of_ne hPF).mpr hs.2)
        · rw [if_neg hnf] at he
          rw [← he]
          rcases hs.1 n hn with h' | h'
          · exact Or.inl h'
          · exact Or.inr ((List.mem_erase_of_ne hnf).mpr h')
      · rw [delete_folder, if_neg hA, if_neg hmem]
        exact hs

theorem store_inv_preserved_witness :
    store_inv initialStore ∧ store_inv (delete_folder sampleStore "Work").1 :=
  ⟨(store_inv_preserved sampleStore (by decide)).1,
   (store_inv_preserved sampleStore (by decide)).2.2.2.2.2 "Work" (by decide)⟩

/-- C1 counterexample: starting from the initial store, add one note to
`"Personal"` and then delete the folder `"Personal"`.  The deletion
"reassigns" the note to `"Personal"` — the very folder being removed —
so afterwards the note's folder names neither `"All Notes"` nor any
folder still in the sequence. -/
theorem folder_integrity_broken_by_fallback_delete :
    ¬ notes_folders_valid
        (delete_folder (add_note initialStore "t" "c" "Personal" "t0").1 "Personal").1 := by
  decide

theorem run_adds_map_id (ops : List NoteOp) :
    ∀ s : Store, (∀ op ∈ ops, op.isAdd = true) →
      s.notes.map Note.id = List.range' 1 s.notes.length →
      (ops.foldl apply_op s).notes.map Note.id
        = List.range' 1 (s.notes.length + ops.length) := by
  induction ops with
  | nil => intro s _ hids; simpa using hids
  | cons op ops ih =>
    intro s hall hids
    cases op with
    | delOp i => exact absurd (hall _ (List.mem_cons_self _ _)) (by simp [NoteOp.isAdd])
    | addOp t c f now =>
      have hstep :
          ((add_note s t c f now).1).notes.map Note.id
            = List.range' 1 ((add_note s t c f now).1).notes.length := by
        have hlen : ((add_note s t c f now).1).notes.length = s.notes.length + 1 := by
          simp [add_note]
        rw [hlen]
        have hcat : List.range' 1 (s.notes.length + 1)
            = List.range' 1 s.notes.length ++ [1 + 1 * s.notes.length] :=
          List.range'_concat 1 s.notes.length
        rw [hcat]
        simp only [add_note, List.map_append, hids, List.map_cons, List.map_nil]
        have : s.notes.length + 1 = 1 + 1 * s.notes.length := by omega
        rw [← this]
      have := ih ((add_note s t c f now).1)
        (fun o ho => hall o (List.mem_cons_of_mem _ ho)) hstep
      rw [List.foldl_cons]
      have hlen : ((add_note s t c f now).1).notes.length = s.notes.length + 1 := by
        simp [add_note]
      rw [show apply_op s (NoteOp.addOp t c f now) = (add_note s t c f now).1 from rfl]
      rw [this, hlen]
      simp only [List.length_cons]
      congr 1
      omega

/-- C2 (amended): `add_note` always assigns id `count of existing notes
plus one`, and for every sequence of operations from the initial store
that contains no `delete_note`, the ids of the stored notes are exactly
`1, 2, ..., n` and hence pairwise distinct.  (The unamended claim —
distinct ids for *every* sequence of `add_note` and `delete_note`
operations — fails: a deletion lowers the count, so the next `add_note`
can reissue a live id; see `note_id_reused_after_delete`.) -/
theorem note_ids_distinct_add_only (ops : List NoteOp)
    (h : ∀ op ∈ ops, op.isAdd = true) :
    (∀ (s : Store) (t c f now : String),
      ((add_note s t c f now).2).id = s.notes.length + 1) ∧
    (run_ops ops).notes.map Note.id = List.range' 1 ops.length ∧
    ((run_ops ops).notes.map Note.id).Nodup := by
  have hrun : (run_ops ops).notes.map Note.id = List.range' 1 ops.length := by
    have := run_adds_map_id ops initialStore h (by simp [initialStore])
    simpa [run_ops, initialStore] using this
  refine ⟨fun s t c f now => rfl, hrun, ?_⟩
  rw [hrun]
  exact List.nodup_range' 1 ops.length

theorem note_ids_distinct_add_only_witness :
    ((add_note sampleStore "T" "C" "Personal" "t1").2).id
        = sampleStore.notes.length + 1 ∧
    (run_ops [NoteOp.addOp "a" "" "Personal" "t",
        NoteOp.addOp "b" "" "Work" "t"]).notes.map Note.id = List.range' 1 2 ∧
    ((run_ops [NoteOp.addOp "a" "" "Personal" "t",
        NoteOp.addOp "b" "" "Work" "t"]).notes.map Note.id).Nodup :=
  ⟨(note_ids_distinct_add_only [NoteOp.addOp "a" "" "Personal" "t",
      NoteOp.addOp "b" "" "Work" "t"] (by decide)).1 sampleStore "T" "C" "Personal" "t1",
   (note_ids_distinct_add_only [NoteOp.addOp "a" "" "Personal" "t",
      NoteOp.addOp "b" "" "Work" "t"] (by decide)).2.1,
   (note_ids_distinct_add_only [NoteOp.addOp "a" "" "Personal" "t",
      NoteOp.addOp "b" "" "Work" "t"] (by decide)).2.2⟩

/-- C2 counterexample: add two notes (ids 1 and 2), delete note 1, add
a third note.  The new note receives id `count + 1 = 2`, which is
already carried by a live note, so the stored ids are `[2, 2]`. -/
theorem note_id_reused_after_delete :
    (run_ops [NoteOp.addOp "a" "" "Personal" "t", NoteOp.addOp "b" "" "Personal" "t",
        NoteOp.delOp 1, NoteOp.addOp "c" "" "Personal" "t"]).notes.map Note.id = [2, 2] ∧
    ¬ ((run_ops [NoteOp.addOp "a" "" "Personal" "t", NoteOp.addOp "b" "" "Personal" "t",
        NoteOp.delOp 1, NoteOp.addOp "c" "" "Personal" "t"]).notes.map Note.id).Nodup := by
  constructor
  · decide
  · decide

end ONotes
